import Mathlib

/-!
Shallow embedding of the ole-gate-count polling-and-differencing engine.

The embedding covers:
* the row schema of the `lib_gate_counts` table (`GateRow`),
* the per-gate update step `update_gate_count` (from
  `GateCounterService._update_gate_count` in `src/app/services/gate_counter.py`
  and the identical `update_gate_count` in `src/gate_counter.py`),
* the per-pass loop `record_gate_counts` and the manual entry point
  `record_once`,
* gate-name resolution (`_get_gate_name` in the service, and the inline
  conditional expression of `record_gate_counts` in `src/gate_counter.py`),
* URL-list construction `_get_gate_urls`,
* the worker's interruptible hourly wait and the standalone script's
  blocking hourly wait,
* the flock-based `ProcessLock` of `src/app/utils/process_lock.py`,
  with OS advisory-lock semantics modelled as an explicit shared state.

Effects are made explicit: wall-clock instants are natural numbers threaded
through the timed variant of the update step, HTTP fetches are an oracle
value per gate, store reads/writes are recorded in an operation trace, and
exceptions caught by the source's `try/except` blocks appear as outcomes
that leave the store unchanged.
-/

/-- Three cumulative counters parsed from the sensor XML body:
`count0` (alarm), `count1` (incoming), `count2` (outgoing).
Python integers are unbounded, hence `Int`. -/
structure RawSample where
  alarm : Int
  incoming : Int
  outgoing : Int
deriving Repr, DecidableEq

/-- One row of `lib_gate_counts`, in the column order of the INSERT in
`GateCountModel.insert_count`. Field names follow the DictCursor keys the
source reads back (`alarm_count`, `incoming_patrons_count`,
`outgoing_patrons_count`). Timestamps are modelled as naturals. -/
structure GateRow where
  timestamp : Nat
  gate_name : String
  alarm_count : Int
  alarm_diff : Int
  incoming_patrons_count : Int
  incoming_diff : Int
  outgoing_patrons_count : Int
  outgoing_diff : Int
deriving Repr, DecidableEq

/-- The append-only store: the `lib_gate_counts` table as a list of rows in
insertion order. -/
abbrev Store := List GateRow

/-- One step of the most-recent-row selection: keep the candidate with the
greatest timestamp among rows named `gate_name` (later-inserted row wins
ties). -/
def glc_step (gate_name : String) : Option GateRow → GateRow → Option GateRow
  | none, r => if r.gate_name = gate_name then some r else none
  | some b, r =>
    if r.gate_name = gate_name then
      if b.timestamp ≤ r.timestamp then some r else some b
    else some b

/-- Embedding of `get_last_count` /
`SELECT * FROM lib_gate_counts WHERE gate_name = %s ORDER BY timestamp DESC
LIMIT 1`: the row for `gate_name` with the greatest timestamp, `none` if the
gate has no rows. Among equal timestamps the later-inserted row wins. -/
def get_last_count (store : Store) (gate_name : String) : Option GateRow :=
  store.foldl (glc_step gate_name) none

/-- Embedding of `insert_count`: append one immutable row. -/
def insert_count (store : Store) (row : GateRow) : Store :=
  store ++ [row]

/-- Outcome of `requests.get(gate_url, timeout=30)` plus XML parsing of the
body, as seen by `update_gate_count`:
* `fetchFailure`: the GET itself raised (transport error or timeout);
* `response status body`: the GET returned with `status`; `body` is
  `some s` when the body parsed as XML with integer `count0`,`count1`,
  `count2` texts, and `none` when `ElementTree.fromstring`, `root.find`
  or `int(...)` raised. -/
inductive HttpResult where
  | fetchFailure
  | response (status : Nat) (body : Option RawSample)
deriving Repr, DecidableEq

/-- A store operation performed by the update step, for reasoning about
which store calls happen: `getLast g` is a `get_last_count` call,
`insertRow row ok` is an `insert_count` call (`ok = false` when the call
raised and the row was not committed). -/
inductive StoreOp where
  | getLast (gate_name : String)
  | insertRow (row : GateRow) (ok : Bool)
deriving Repr, DecidableEq

/-- Embedding of `update_gate_count(gate_url, gate_name)`
(src/gate_counter.py lines 75-115, identical logic in
`GateCounterService._update_gate_count`). `timestamp` is the wall-clock
value captured at entry. `getLastRaises` / `insertRaises` make the two
store calls fallible; any raised exception is caught by the function's
`except` block, so every branch returns normally. Returns the new store
together with the trace of store operations performed. -/
def update_gate_count (store : Store) (gate_name : String) (timestamp : Nat)
    (http : HttpResult) (getLastRaises insertRaises : Bool) :
    Store × List StoreOp :=
  match http with
  | .fetchFailure => (store, [])
  | .response status body =>
    if status ≠ 200 then
      (store, [])
    else
      match body with
      | none => (store, [])
      | some s =>
        if getLastRaises then
          (store, [StoreOp.getLast gate_name])
        else
          let last := get_last_count store gate_name
          let alarm_diff : Int :=
            match last with
            | none => 0
            | some l => s.alarm - l.alarm_count
          let incoming_diff : Int :=
            match last with
            | none => 0
            | some l => s.incoming - l.incoming_patrons_count
          let outgoing_diff : Int :=
            match last with
            | none => 0
            | some l => s.outgoing - l.outgoing_patrons_count
          let row : GateRow :=
            { timestamp := timestamp
              gate_name := gate_name
              alarm_count := s.alarm
              alarm_diff := alarm_diff
              incoming_patrons_count := s.incoming
              incoming_diff := incoming_diff
              outgoing_patrons_count := s.outgoing
              outgoing_diff := outgoing_diff }
          if insertRaises then
            (store, [StoreOp.getLast gate_name, StoreOp.insertRow row false])
          else
            (insert_count store row,
             [StoreOp.getLast gate_name, StoreOp.insertRow row true])

/-- Timed embedding of the same function, making the order of the first two
statements explicit: `timestamp = datetime.now()` runs at wall clock
`clock`, and `requests.get` returns `fetchDur` seconds later. The second
component of the result is the wall-clock instant at which the fetch
completed. -/
def update_gate_count_timed (store : Store) (gate_name : String)
    (clock fetchDur : Nat) (http : HttpResult)
    (getLastRaises insertRaises : Bool) :
    (Store × List StoreOp) × Nat :=
  let timestamp := clock
  let fetchDone := clock + fetchDur
  (update_gate_count store gate_name timestamp http getLastRaises insertRaises,
   fetchDone)

/-- Test whether `pat` begins `s` (character lists). -/
def starts_with (pat s : List Char) : Bool :=
  match pat, s with
  | [], _ => true
  | _ :: _, [] => false
  | p :: ps, c :: cs => p = c && starts_with ps cs

/-- Embedding of Python's substring test `pat in s` on character lists. -/
def py_in (pat : List Char) : List Char → Bool
  | [] => pat.isEmpty
  | c :: cs => starts_with pat (c :: cs) || py_in pat cs

/-- Test whether string `s` contains `pat` as a substring (Python `in`). -/
def hasSubstr (s pat : String) : Bool :=
  py_in pat.data s.data

/-- ASCII lowercasing of one character, as Python's `str.lower` acts on the
ASCII range (the URLs handled here are ASCII). -/
def char_lower (c : Char) : Char :=
  if 65 ≤ c.toNat ∧ c.toNat ≤ 90 then Char.ofNat (c.toNat + 32) else c

/-- Embedding of `url.lower()`. -/
def py_lower (s : String) : String :=
  ⟨s.data.map char_lower⟩

/-- Python whitespace for `str.strip()`: space, tab, newline, carriage
return, vertical tab (11), form feed (12). -/
def is_py_space (c : Char) : Bool :=
  c = ' ' || c = '\t' || c = '\n' || c = '\r' || c.toNat = 11 || c.toNat = 12

/-- Strip leading and trailing Python whitespace from a character list. -/
def strip_list (l : List Char) : List Char :=
  ((l.dropWhile is_py_space).reverse.dropWhile is_py_space).reverse

/-- Embedding of `url.strip()`. -/
def py_strip (s : String) : String :=
  ⟨strip_list s.data⟩

/-- Split a character list on every occurrence of the separator character;
embeds Python's `s.split(",")` (the source always splits on a single
comma). Adjacent separators yield empty chunks, as in Python. -/
def split_char (sep : Char) : List Char → List (List Char)
  | [] => [[]]
  | c :: cs =>
    match split_char sep cs with
    | [] => [[]]
    | chunk :: rest =>
      if c = sep then [] :: chunk :: rest else (c :: chunk) :: rest

/-- Embedding of `GateCounterService._get_gate_name(url, index)`:
lowercase the URL, then first-match-wins substring checks. -/
def get_gate_name (url : String) (index : Nat) : String :=
  let url_lower := py_lower url
  if hasSubstr url_lower "south" then "FM South gate"
  else if hasSubstr url_lower "west" then "FM West gate"
  else "Gate " ++ toString (index + 1)

/-- Embedding of the inline gate-name expression in
`record_gate_counts` of `src/gate_counter.py` (lines 121-125): the same
substring checks against the raw (stripped) URL, without lowercasing. -/
def gate_name_standalone (url : String) (i : Nat) : String :=
  if hasSubstr url "south" then "FM South gate"
  else if hasSubstr url "west" then "FM West gate"
  else "Gate " ++ toString (i + 1)

/-- Per-gate environment for one pass: the wall clock at entry to the
update, the HTTP outcome for this gate's URL, and whether each of the two
store calls raises. Indexed by the gate's position in the configured list. -/
structure GateEnv where
  timestamp : Nat
  http : HttpResult
  getLastRaises : Bool
  insertRaises : Bool

/-- The body of `_record_gate_counts` from position `i` on: resolve the gate
name, run the per-gate update, continue with the next URL. Store-operation
traces are concatenated in order. -/
def record_loop (env : Nat → GateEnv) (urls : List String) (i : Nat)
    (store : Store) (ops : List StoreOp) : Store × List StoreOp :=
  match urls with
  | [] => (store, ops)
  | url :: rest =>
    let g := get_gate_name url i
    let e := env i
    let r := update_gate_count store g e.timestamp e.http
      e.getLastRaises e.insertRaises
    record_loop env rest (i + 1) r.1 (ops ++ r.2)

/-- Embedding of `GateCounterService._record_gate_counts`: enumerate the
configured URLs from position 0. -/
def record_gate_counts (env : Nat → GateEnv) (urls : List String)
    (store : Store) : Store × List StoreOp :=
  record_loop env urls 0 store []

/-- Embedding of `GateCounterService.record_once`: with no configured URLs
it logs and returns (no store activity); otherwise it runs one pass. -/
def record_once (env : Nat → GateEnv) (urls : List String)
    (store : Store) : Store × List StoreOp :=
  if urls = [] then (store, [])
  else record_gate_counts env urls store

/-- Embedding of `GateCounterService._get_gate_urls`: read `OLE_GATE_URLS`
(defaulting to `""` when unset), return `[]` for the empty string, else
split on commas, strip each entry, and keep only nonempty entries. -/
def get_gate_urls (env_val : Option String) : List String :=
  let urls_env := env_val.getD ""
  if urls_env = "" then []
  else
    (((split_char ',' urls_env.data).map
      (fun c => py_strip ⟨c⟩)).filter (fun u => u ≠ ""))

/-- Embedding of the hourly-alignment computation
`s = 3600 - (now.minute * 60 + now.second)` shared by
`GateCounterService._worker` and `main()` of `src/gate_counter.py`. -/
def seconds_until_hour (minute second : Nat) : Nat :=
  3600 - (minute * 60 + second)

/-- The body of the worker's interruptible wait
(`for _ in range(s): if not self.running: return; time.sleep(1)`):
`fuel` is the number of remaining loop iterations, `elapsed` the seconds
slept so far. `running u` is the value the flag has when read at elapsed
time `u`. Returns the elapsed time at which the loop finishes, together
with the list of elapsed times at which the flag was read. -/
def wait_step (running : Nat → Bool) : Nat → Nat → Nat × List Nat
  | 0, elapsed => (elapsed, [])
  | fuel + 1, elapsed =>
    if running elapsed then
      let r := wait_step running fuel (elapsed + 1)
      (r.1, elapsed :: r.2)
    else (elapsed, [elapsed])

/-- Embedding of the worker's wait loop in
`GateCounterService._worker` (src/app/services/gate_counter.py
lines 60-63): sleep in 1-second increments, checking `self.running`
before each increment. -/
def wait_loop (s : Nat) (running : Nat → Bool) : Nat × List Nat :=
  wait_step running s 0

/-- Embedding of the standalone script's wait, `time.sleep(s)`
(src/gate_counter.py line 136): a single blocking sleep of the full `s`
seconds; no flag is consulted during it, so the elapsed time at which it
finishes is always `s` and the list of flag reads is empty. -/
def main_wait (s : Nat) : Nat × List Nat :=
  (s, [])

/-- Shared state of the advisory flock protocol on one lock path:
which cooperating process (by pid) currently holds the exclusive flock on
the lock file, and whether the lock file exists on disk. -/
structure FlockState where
  holder : Option Nat
  file_present : Bool
deriving Repr, DecidableEq

/-- Embedding of a `ProcessLock` object (src/app/utils/process_lock.py):
the owning process id and the `self.lock_file` attribute
(`lock_file = true` iff the attribute is an open file, not `None`). -/
structure ProcessLock where
  pid : Nat
  lock_file : Bool
deriving Repr, DecidableEq

/-- Embedding of `ProcessLock.acquire` as one atomic transition on the
shared flock state (the decisive step is the single
`fcntl.flock(..., LOCK_EX | LOCK_NB)` call):
`open(path, "w")` creates/truncates the lock file; the non-blocking flock
succeeds exactly when no open file description currently holds the flock,
else it raises and the handle is closed. Returns
(success flag, updated lock object, updated shared state). -/
def ProcessLock.acquire (lk : ProcessLock) (st : FlockState) :
    Bool × ProcessLock × FlockState :=
  let st1 : FlockState := { st with file_present := true }
  match st1.holder with
  | none =>
    (true, { lk with lock_file := true }, { st1 with holder := some lk.pid })
  | some _ =>
    (false, { lk with lock_file := false }, st1)

/-- Embedding of `ProcessLock.release`: when `self.lock_file` is set,
unlock (`LOCK_UN`) and close the handle, clear the attribute, and unlink
the lock file; when the attribute is `None` (never acquired, or already
released) the whole body is skipped and nothing happens. -/
def ProcessLock.release (lk : ProcessLock) (st : FlockState) :
    ProcessLock × FlockState :=
  if lk.lock_file then
    ({ lk with lock_file := false },
     { holder := if st.holder = some lk.pid then none else st.holder
       file_present := false })
  else (lk, st)

example : get_gate_urls (some "a, b ,,c,") = ["a", "b", "c"] := by decide
example :
    (update_gate_count [] "g" 3 (.response 200 (some ⟨5, 120, 80⟩))
      false false).1
    = [⟨3, "g", 5, 0, 120, 0, 80, 0⟩] := by decide

/-! Helper lemmas about the per-gate update step. -/

lemma update_fetch_failure (store : Store) (g : String) (ts : Nat)
    (gr ir : Bool) :
    update_gate_count store g ts HttpResult.fetchFailure gr ir = (store, []) :=
  rfl

lemma update_bad_status (store : Store) (g : String) (ts : Nat)
    (status : Nat) (body : Option RawSample) (gr ir : Bool)
    (h : status ≠ 200) :
    update_gate_count store g ts (HttpResult.response status body) gr ir
      = (store, []) := by
  simp only [update_gate_count]
  rw [if_pos h]

lemma update_no_body (store : Store) (g : String) (ts : Nat) (gr ir : Bool) :
    update_gate_count store g ts (HttpResult.response 200 none) gr ir
      = (store, []) :=
  rfl

lemma update_get_raises (store : Store) (g : String) (ts : Nat)
    (s : RawSample) (ir : Bool) :
    update_gate_count store g ts (HttpResult.response 200 (some s)) true ir
      = (store, [StoreOp.getLast g]) :=
  rfl

lemma update_insert_raises (store : Store) (g : String) (ts : Nat)
    (s : RawSample) :
    ∃ row, update_gate_count store g ts (HttpResult.response 200 (some s))
      false true = (store, [StoreOp.getLast g, StoreOp.insertRow row false]) :=
  ⟨_, rfl⟩

/-- The fully successful path of the update step: the store grows by exactly
one row, whose counter fields come from the fetched sample, whose timestamp
is the captured one, and whose diff fields are zero without a previous row
and current-minus-previous with one. -/
lemma update_gate_count_ok (store : Store) (g : String) (ts : Nat)
    (s : RawSample) :
    ∃ row : GateRow,
      update_gate_count store g ts (HttpResult.response 200 (some s))
        false false
        = (store ++ [row], [StoreOp.getLast g, StoreOp.insertRow row true])
      ∧ row.timestamp = ts ∧ row.gate_name = g
      ∧ row.alarm_count = s.alarm
      ∧ row.incoming_patrons_count = s.incoming
      ∧ row.outgoing_patrons_count = s.outgoing
      ∧ row.alarm_diff = (match get_last_count store g with
          | none => 0
          | some l => s.alarm - l.alarm_count)
      ∧ row.incoming_diff = (match get_last_count store g with
          | none => 0
          | some l => s.incoming - l.incoming_patrons_count)
      ∧ row.outgoing_diff = (match get_last_count store g with
          | none => 0
          | some l => s.outgoing - l.outgoing_patrons_count) :=
  ⟨_, rfl, rfl, rfl, rfl, rfl, rfl, rfl, rfl, rfl⟩

/-- Every branch of the update step either leaves the store unchanged or
appends exactly one row. -/
lemma update_gate_count_shape (store : Store) (g : String) (ts : Nat)
    (http : HttpResult) (gr ir : Bool) :
    (update_gate_count store g ts http gr ir).1 = store
    ∨ ∃ row, (update_gate_count store g ts http gr ir).1 = store ++ [row] := by
  rcases http with _ | ⟨status, body⟩
  · exact Or.inl rfl
  · by_cases h : status = 200
    · subst h
      rcases body with _ | s
      · exact Or.inl rfl
      · cases gr
        · cases ir
          · obtain ⟨row, hrow, -⟩ := update_gate_count_ok store g ts s
            exact Or.inr ⟨row, by rw [hrow]⟩
          · obtain ⟨row, hrow⟩ := update_insert_raises store g ts s
            exact Or.inl (by rw [hrow])
        · exact Or.inl rfl
    · exact Or.inl (by rw [update_bad_status store g ts status body gr ir h])

/-- Rows already in the store survive the update step. -/
lemma update_gate_count_mem (store : Store) (g : String) (ts : Nat)
    (http : HttpResult) (gr ir : Bool) (a : GateRow) (h : a ∈ store) :
    a ∈ (update_gate_count store g ts http gr ir).1 := by
  rcases update_gate_count_shape store g ts http gr ir with hs | ⟨row, hs⟩
  · rw [hs]; exact h
  · rw [hs]; exact List.mem_append_left _ h

/-! Characterization of `get_last_count` as the most recent row. -/

lemma glc_step_name (g : String) (acc : Option GateRow) (r : GateRow)
    (h : ∀ b, acc = some b → b.gate_name = g) :
    ∀ b, glc_step g acc r = some b → b.gate_name = g := by
  intro b hb
  rcases acc with _ | a
  · by_cases hr : r.gate_name = g
    · simp [glc_step, hr] at hb
      rw [← hb]; exact hr
    · simp [glc_step, hr] at hb
  · by_cases hr : r.gate_name = g
    · by_cases hle : a.timestamp ≤ r.timestamp
      · simp [glc_step, hr, hle] at hb
        rw [← hb]; exact hr
      · simp [glc_step, hr, hle] at hb
        rw [← hb]; exact h a rfl
    · simp [glc_step, hr] at hb
      rw [← hb]; exact h a rfl

lemma glc_step_none (g : String) (acc : Option GateRow) (r : GateRow)
    (h : glc_step g acc r = none) : acc = none ∧ r.gate_name ≠ g := by
  rcases acc with _ | a
  · by_cases hr : r.gate_name = g
    · simp [glc_step, hr] at h
    · exact ⟨rfl, hr⟩
  · by_cases hr : r.gate_name = g
    · by_cases hle : a.timestamp ≤ r.timestamp
      · simp [glc_step, hr, hle] at h
      · simp [glc_step, hr, hle] at h
    · simp [glc_step, hr] at h

lemma glc_step_mem (g : String) (acc : Option GateRow) (r : GateRow) :
    ∀ m, glc_step g acc r = some m → acc = some m ∨ m = r := by
  intro m hm
  rcases acc with _ | a
  · by_cases hr : r.gate_name = g
    · simp [glc_step, hr] at hm
      exact Or.inr hm.symm
    · simp [glc_step, hr] at hm
  · by_cases hr : r.gate_name = g
    · by_cases hle : a.timestamp ≤ r.timestamp
      · simp [glc_step, hr, hle] at hm
        exact Or.inr hm.symm
      · simp [glc_step, hr, hle] at hm
        exact Or.inl (by rw [hm])
    · simp [glc_step, hr] at hm
      exact Or.inl (by rw [hm])

lemma glc_step_le (g : String) (acc : Option GateRow) (r : GateRow)
    (b : GateRow) (h : acc = some b) :
    ∃ m, glc_step g acc r = some m ∧ b.timestamp ≤ m.timestamp := by
  subst h
  by_cases hr : r.gate_name = g
  · by_cases hle : b.timestamp ≤ r.timestamp
    · exact ⟨r, by simp [glc_step, hr, hle], hle⟩
    · exact ⟨b, by simp [glc_step, hr, hle], le_refl _⟩
  · exact ⟨b, by simp [glc_step, hr], le_refl _⟩

lemma glc_step_new (g : String) (acc : Option GateRow) (r : GateRow)
    (h : r.gate_name = g) :
    ∃ m, glc_step g acc r = some m ∧ r.timestamp ≤ m.timestamp := by
  rcases acc with _ | a
  · exact ⟨r, by simp [glc_step, h], le_refl _⟩
  · by_cases hle : a.timestamp ≤ r.timestamp
    · exact ⟨r, by simp [glc_step, h, hle], le_refl _⟩
    · exact ⟨a, by simp [glc_step, h, hle], le_of_not_le hle⟩

lemma glc_fold_spec (g : String) :
    ∀ (store : Store) (acc : Option GateRow),
      (∀ b, acc = some b → b.gate_name = g) →
      (store.foldl (glc_step g) acc = none →
        acc = none ∧ ∀ r ∈ store, r.gate_name ≠ g)
      ∧ (∀ m, store.foldl (glc_step g) acc = some m →
          acc = some m ∨ (m ∈ store ∧ m.gate_name = g))
      ∧ (∀ b, acc = some b →
          ∃ m, store.foldl (glc_step g) acc = some m ∧ b.timestamp ≤ m.timestamp)
      ∧ (∀ l ∈ store, l.gate_name = g →
          ∃ m, store.foldl (glc_step g) acc = some m
            ∧ l.timestamp ≤ m.timestamp) := by
  intro store
  induction store with
  | nil =>
    intro acc hname
    refine ⟨fun h => ⟨h, by simp⟩, fun m hm => Or.inl hm,
      fun b hb => ⟨b, hb, le_refl _⟩, by simp⟩
  | cons r rest ih =>
    intro acc hname
    have hname' : ∀ b, glc_step g acc r = some b → b.gate_name = g :=
      glc_step_name g acc r hname
    obtain ⟨ih_none, ih_mem, ih_le, ih_new⟩ := ih (glc_step g acc r) hname'
    refine ⟨?_, ?_, ?_, ?_⟩
    · intro h
      have h2 := ih_none h
      obtain ⟨hstep, hnr⟩ := glc_step_none g acc r h2.1
      refine ⟨hstep, ?_⟩
      intro x hx
      rcases List.mem_cons.mp hx with hx | hx
      · subst hx; exact hnr
      · exact h2.2 x hx
    · intro m hm
      rcases ih_mem m hm with hstep | ⟨hmem, hmg⟩
      · rcases glc_step_mem g acc r m hstep with ha | hr
        · exact Or.inl ha
        · subst hr
          exact Or.inr ⟨List.mem_cons_self _ _, hname' m hstep⟩
      · exact Or.inr ⟨List.mem_cons_of_mem _ hmem, hmg⟩
    · intro b hb
      obtain ⟨m1, hm1, hle1⟩ := glc_step_le g acc r b hb
      obtain ⟨m2, hm2, hle2⟩ := ih_le m1 hm1
      exact ⟨m2, hm2, le_trans hle1 hle2⟩
    · intro l hl hlg
      rcases List.mem_cons.mp hl with hl | hl
      · subst hl
        obtain ⟨m1, hm1, hle1⟩ := glc_step_new g acc l hlg
        obtain ⟨m2, hm2, hle2⟩ := ih_le m1 hm1
        exact ⟨m2, hm2, le_trans hle1 hle2⟩
      · exact ih_new l hl hlg

/-- `get_last_count` really is the most recent row for the gate: `none`
exactly when the gate has no rows; a returned row is a row of the store with
the right gate name, and no row of the store with that gate name has a
greater timestamp. -/
lemma get_last_count_spec (store : Store) (g : String) :
    (get_last_count store g = none → ∀ r ∈ store, r.gate_name ≠ g)
    ∧ (∀ m, get_last_count store g = some m → m ∈ store ∧ m.gate_name = g)
    ∧ (∀ l ∈ store, l.gate_name = g →
        ∃ m, get_last_count store g = some m ∧ l.timestamp ≤ m.timestamp) := by
  obtain ⟨h_none, h_mem, h_le, h_new⟩ :=
    glc_fold_spec g store none (fun b hb => by cases hb)
  refine ⟨fun h => (h_none h).2, ?_, h_new⟩
  intro m hm
  rcases h_mem m hm with h | h
  · cases h
  · exact h

/-- Rows already in the store survive the rest of a pass. -/
lemma record_loop_mem (env : Nat → GateEnv) :
    ∀ (urls : List String) (i : Nat) (store : Store) (ops : List StoreOp)
      (a : GateRow), a ∈ store → a ∈ (record_loop env urls i store ops).1 := by
  intro urls
  induction urls with
  | nil => intro i store ops a ha; exact ha
  | cons url rest ih =>
    intro i store ops a ha
    exact ih (i + 1) _ _ a (update_gate_count_mem _ _ _ _ _ _ a ha)

/-- A gate at offset `j` of the remaining URL list whose fetch, parse and
store calls all succeed gets its row into the final store, whatever happens
to the other gates. -/
lemma record_loop_success (env : Nat → GateEnv) :
    ∀ (urls : List String) (i : Nat) (store : Store) (ops : List StoreOp)
      (j : Nat) (s : RawSample), j < urls.length →
      (env (i + j)).http = HttpResult.response 200 (some s) →
      (env (i + j)).getLastRaises = false →
      (env (i + j)).insertRaises = false →
      ∃ row ∈ (record_loop env urls i store ops).1,
        row.gate_name = get_gate_name (urls.getD j "") (i + j)
        ∧ row.timestamp = (env (i + j)).timestamp
        ∧ row.alarm_count = s.alarm
        ∧ row.incoming_patrons_count = s.incoming
        ∧ row.outgoing_patrons_count = s.outgoing := by
  intro urls
  induction urls with
  | nil =>
    intro i store ops j s hj
    exact absurd hj (by simp)
  | cons url rest ih =>
    intro i store ops j s hj hok hg hi
    rcases j with _ | k
    · obtain ⟨row, hrow, hts, hgn, hal, hin, hout, -⟩ :=
        update_gate_count_ok store (get_gate_name url i) (env i).timestamp s
      have hstep :
          update_gate_count store (get_gate_name url i) (env i).timestamp
            (env i).http (env i).getLastRaises (env i).insertRaises
          = (store ++ [row],
             [StoreOp.getLast (get_gate_name url i),
              StoreOp.insertRow row true]) := by
        rw [show env (i + 0) = env i from by rw [Nat.add_zero]] at hok hg hi
        rw [hok, hg, hi, hrow]
      refine ⟨row, ?_, ?_⟩
      · show row ∈ (record_loop env rest (i + 1) _ _).1
        rw [hstep]
        exact record_loop_mem env rest (i + 1) _ _ row
          (List.mem_append_right _ (List.mem_singleton_self row))
      · rw [Nat.add_zero]
        exact ⟨hgn, hts, hal, hin, hout⟩
    · have hj' : k < rest.length := by
        simpa [Nat.succ_lt_succ_iff] using hj
      have hidx : i + (k + 1) = (i + 1) + k := by omega
      rw [hidx] at hok hg hi
      obtain ⟨row, hmem, hprop⟩ := ih (i + 1) _ _ k s hj' hok hg hi
      refine ⟨row, hmem, ?_⟩
      rw [List.getD_cons_succ, hidx]
      exact hprop

/-! Lemmas about the worker's interruptible wait. -/

lemma wait_step_stop (running : Nat → Bool) (t : Nat)
    (hstop : ∀ u, t ≤ u → running u = false) :
    ∀ (fuel elapsed : Nat), elapsed ≤ t →
      (wait_step running fuel elapsed).1 ≤ t := by
  intro fuel
  induction fuel with
  | zero => intro elapsed he; exact he
  | succ n ih =>
    intro elapsed he
    by_cases hrun : running elapsed = true
    · have hlt : elapsed < t := by
        rcases Nat.lt_or_ge elapsed t with h | h
        · exact h
        · rw [hstop elapsed h] at hrun; cases hrun
      simp only [wait_step, hrun, if_true]
      exact ih (elapsed + 1) hlt
    · simp only [wait_step, hrun, if_false]
      exact he

lemma wait_step_checks (running : Nat → Bool) :
    ∀ (fuel elapsed u : Nat), elapsed ≤ u →
      u < (wait_step running fuel elapsed).1 →
      u ∈ (wait_step running fuel elapsed).2 := by
  intro fuel
  induction fuel with
  | zero =>
    intro elapsed u he hu
    exact absurd hu (by simp [wait_step, Nat.not_lt.mpr he])
  | succ n ih =>
    intro elapsed u he hu
    by_cases hrun : running elapsed = true
    · simp only [wait_step, hrun, if_true] at hu ⊢
      rcases Nat.eq_or_lt_of_le he with heq | hlt
      · exact heq ▸ List.mem_cons_self _ _
      · exact List.mem_cons_of_mem _ (ih (elapsed + 1) u hlt hu)
    · simp only [wait_step, hrun, if_false] at hu
      exact absurd hu (by simp [Nat.not_lt.mpr he])

/-! Claim theorems. -/

/-- C1: when fetch and parse succeed (and the store calls do not raise), the
update appends exactly one row whose counters are the fetched ones; its
diffs are all 0 when the gate has no stored sample, and otherwise are the
fetched counters minus those of the most recent stored sample for the gate
(the row of maximal timestamp), as signed integers with no clamping. -/
theorem update_gate_count_diffs (store : Store) (g : String) (ts : Nat)
    (s : RawSample) :
    ∃ row : GateRow,
      (update_gate_count store g ts (HttpResult.response 200 (some s))
        false false).1 = store ++ [row]
      ∧ row.timestamp = ts ∧ row.gate_name = g
      ∧ row.alarm_count = s.alarm
      ∧ row.incoming_patrons_count = s.incoming
      ∧ row.outgoing_patrons_count = s.outgoing
      ∧ (get_last_count store g = none →
          row.alarm_diff = 0 ∧ row.incoming_diff = 0 ∧ row.outgoing_diff = 0)
      ∧ (∀ l, get_last_count store g = some l →
          row.alarm_diff = s.alarm - l.alarm_count
          ∧ row.incoming_diff = s.incoming - l.incoming_patrons_count
          ∧ row.outgoing_diff = s.outgoing - l.outgoing_patrons_count)
      ∧ (get_last_count store g = none → ∀ l ∈ store, l.gate_name ≠ g)
      ∧ (∀ l, get_last_count store g = some l → l ∈ store ∧ l.gate_name = g
          ∧ ∀ r ∈ store, r.gate_name = g → r.timestamp ≤ l.timestamp) := by
  obtain ⟨row, hrow, hts, hgn, hal, hin, hout, hd1, hd2, hd3⟩ :=
    update_gate_count_ok store g ts s
  obtain ⟨hnone, hmem, hmax⟩ := get_last_count_spec store g
  refine ⟨row, by rw [hrow], hts, hgn, hal, hin, hout, ?_, ?_, hnone, ?_⟩
  · intro h
    exact ⟨by rw [hd1, h], by rw [hd2, h], by rw [hd3, h]⟩
  · intro l hl
    exact ⟨by rw [hd1, hl], by rw [hd2, hl], by rw [hd3, hl]⟩
  · intro l hl
    obtain ⟨hlm, hlg⟩ := hmem l hl
    refine ⟨hlm, hlg, ?_⟩
    intro r hr hrg
    obtain ⟨m, hm, hle⟩ := hmax r hr hrg
    have hml : m = l := by
      rw [hl] at hm
      exact (Option.some.inj hm).symm
    rw [← hml]
    exact hle

/-- C1 witness: the spec's scenario — previous row with counters 7,130,85
and fresh counters 9,140,90 give diffs 2,10,5. -/
theorem update_gate_count_diffs_witness :
    ∃ row : GateRow,
      (update_gate_count [⟨1, "FM South gate", 7, 2, 130, 10, 85, 5⟩]
        "FM South gate" 9 (HttpResult.response 200 (some ⟨9, 140, 90⟩))
        false false).1
        = [⟨1, "FM South gate", 7, 2, 130, 10, 85, 5⟩] ++ [row]
      ∧ row.alarm_diff = 2 ∧ row.incoming_diff = 10
      ∧ row.outgoing_diff = 5 := by
  obtain ⟨row, hrow, h2, h3, h4, h5, h6, h7, hsome, h9, h10⟩ :=
    update_gate_count_diffs [⟨1, "FM South gate", 7, 2, 130, 10, 85, 5⟩]
      "FM South gate" 9 ⟨9, 140, 90⟩
  have hlast :
      get_last_count [⟨1, "FM South gate", 7, 2, 130, 10, 85, 5⟩]
        "FM South gate"
      = some ⟨1, "FM South gate", 7, 2, 130, 10, 85, 5⟩ := by decide
  obtain ⟨ha, hb, hc⟩ := hsome _ hlast
  exact ⟨row, hrow, ha.trans (by decide), hb.trans (by decide),
    hc.trans (by decide)⟩

/-- C2: in one pass, a gate at position `j` whose fetch, parse and store
calls all succeed gets its sample inserted into the store, for arbitrary
outcomes (bad status, malformed body, raising store calls) at every other
gate: per-gate failures are absorbed and never stop the loop. -/
theorem record_pass_isolates_failures (urls : List String)
    (env : Nat → GateEnv) (store : Store) (j : Nat) (s : RawSample)
    (hj : j < urls.length)
    (hok : (env j).http = HttpResult.response 200 (some s))
    (hg : (env j).getLastRaises = false)
    (hi : (env j).insertRaises = false) :
    ∃ row ∈ (record_gate_counts env urls store).1,
      row.gate_name = get_gate_name (urls.getD j "") j
      ∧ row.timestamp = (env j).timestamp
      ∧ row.alarm_count = s.alarm
      ∧ row.incoming_patrons_count = s.incoming
      ∧ row.outgoing_patrons_count = s.outgoing := by
  have h := record_loop_success env urls 0 store [] j s hj
  simp only [Nat.zero_add] at h
  exact h hok hg hi

/-- Environment for the C2 witness: gate 0 returns a well-formed HTTP 200
response whose body is missing `count1` (a parse failure), gate 1 succeeds
with counters 5,120,80. -/
def env_cex : Nat → GateEnv := fun i =>
  if i = 0 then
    { timestamp := 0, http := HttpResult.response 200 none,
      getLastRaises := false, insertRaises := false }
  else
    { timestamp := 1, http := HttpResult.response 200 (some ⟨5, 120, 80⟩),
      getLastRaises := false, insertRaises := false }

/-- C2 witness: the malformed response for gate A does not prevent the
insertion of gate B's valid sample in the same pass. -/
theorem record_pass_isolates_failures_witness :
    ∃ row ∈ (record_gate_counts env_cex ["http://a/", "http://b/south"] []).1,
      row.gate_name = get_gate_name (["http://a/", "http://b/south"].getD 1 "") 1
      ∧ row.timestamp = (env_cex 1).timestamp
      ∧ row.alarm_count = (⟨5, 120, 80⟩ : RawSample).alarm
      ∧ row.incoming_patrons_count = (⟨5, 120, 80⟩ : RawSample).incoming
      ∧ row.outgoing_patrons_count = (⟨5, 120, 80⟩ : RawSample).outgoing :=
  record_pass_isolates_failures ["http://a/", "http://b/south"] env_cex []
    1 ⟨5, 120, 80⟩ (by decide) rfl rfl rfl

/-- C5: a response with any status other than 200 leaves the store
unchanged and performs no store operation at all — no read of the last
sample and no insert. -/
theorem bad_status_no_store (store : Store) (g : String) (ts status : Nat)
    (body : Option RawSample) (gr ir : Bool) (h : status ≠ 200) :
    update_gate_count store g ts (HttpResult.response status body) gr ir
      = (store, []) :=
  update_bad_status store g ts status body gr ir h

/-- C5 witness: an HTTP 500 response, even with a parseable body, writes
nothing. -/
theorem bad_status_no_store_witness :
    update_gate_count [] "Gate 1" 0
      (HttpResult.response 500 (some ⟨1, 2, 3⟩)) false false = ([], []) :=
  bad_status_no_store [] "Gate 1" 0 500 (some ⟨1, 2, 3⟩) false false
    (by decide)

/-- C8: `record_once` with an empty endpoint list performs no store
operations (empty operation trace) and returns with the store unchanged. -/
theorem record_once_empty_noop (env : Nat → GateEnv) (store : Store) :
    record_once env [] store = (store, []) :=
  rfl

/-- C10: the URL-list construction never yields an empty URL — every entry
is the strip of some comma-separated chunk and is nonempty — and an unset
or empty `OLE_GATE_URLS` yields the empty list. -/
theorem gate_urls_clean (v : Option String) :
    (get_gate_urls none = [] ∧ get_gate_urls (some "") = [])
    ∧ ∀ u ∈ get_gate_urls v, u ≠ ""
        ∧ ∃ c ∈ split_char ',' ((v.getD "").data), u = py_strip ⟨c⟩ := by
  refine ⟨⟨rfl, rfl⟩, ?_⟩
  intro u hu
  simp only [get_gate_urls] at hu
  by_cases hv : (v.getD "") = ""
  · rw [if_pos hv] at hu
    exact absurd hu (List.not_mem_nil u)
  · rw [if_neg hv] at hu
    simp only [List.mem_filter, List.mem_map, decide_eq_true_eq] at hu
    obtain ⟨⟨c, hc, hcu⟩, hne⟩ := hu
    exact ⟨hne, c, hc, hcu.symm⟩

/-- C10 witness: `" a ,, b "` yields the entry `"a"`, which is stripped,
nonempty, and comes from the first chunk; doubled commas add nothing. -/
theorem gate_urls_clean_witness :
    "a" ≠ ""
    ∧ ∃ c ∈ split_char ',' (((some " a ,, b " : Option String).getD "").data),
        "a" = py_strip ⟨c⟩ :=
  (gate_urls_clean (some " a ,, b ")).2 "a" (by decide)

/-- C3 counterexample: the standalone script's resolver is not
case-insensitive — `"SOUTH"` occurs in the URL (case-insensitively the URL
contains "south"), yet the resolver falls through to the positional name
instead of `"FM South gate"`. -/
theorem standalone_gate_name_case_cex :
    hasSubstr (py_lower "http://SOUTH.example/") "south" = true
    ∧ gate_name_standalone "http://SOUTH.example/" 0 = "Gate 1"
    ∧ gate_name_standalone "http://SOUTH.example/" 0 ≠ "FM South gate" := by
  refine ⟨by decide, by decide, ?_⟩
  intro h
  exact absurd (by rw [show gate_name_standalone "http://SOUTH.example/" 0
    = "Gate 1" from by decide] at h; exact h)
    (by decide)

/-- C3 amended: both resolvers are deterministic total functions with the
stated first-match-wins rule, but only the service's `_get_gate_name` is
case-insensitive: it is invariant under the case of the URL, and it agrees
with the standalone resolver applied to the lowercased URL. The standalone
resolver matches the lowercase literals "south"/"west" case-sensitively
against the raw URL. -/
theorem gate_name_resolution_amended (url url2 : String) (i : Nat) :
    (py_lower url = py_lower url2 →
      get_gate_name url i = get_gate_name url2 i)
    ∧ gate_name_standalone (py_lower url) i = get_gate_name url i
    ∧ (hasSubstr (py_lower url) "south" = true →
        get_gate_name url i = "FM South gate")
    ∧ (hasSubstr (py_lower url) "south" = false →
        hasSubstr (py_lower url) "west" = true →
        get_gate_name url i = "FM West gate")
    ∧ (hasSubstr (py_lower url) "south" = false →
        hasSubstr (py_lower url) "west" = false →
        get_gate_name url i = "Gate " ++ toString (i + 1)) := by
  refine ⟨?_, rfl, ?_, ?_, ?_⟩
  · intro h
    unfold get_gate_name
    rw [h]
  · intro hs
    simp [get_gate_name, hs]
  · intro hs hw
    simp [get_gate_name, hs, hw]
  · intro hs hw
    simp [get_gate_name, hs, hw]

/-- C3 amended witness: `"SOUTH"` and `"south"` resolve identically in the
service, and the standalone resolver on the lowercased URL matches the
service on the raw one. -/
theorem gate_name_resolution_amended_witness :
    get_gate_name "http://SOUTH.example/" 0
      = get_gate_name "http://south.example/" 0
    ∧ gate_name_standalone (py_lower "http://WEST/") 3
      = get_gate_name "http://WEST/" 3
    ∧ get_gate_name "http://SOUTH.example/" 0 = "FM South gate"
    ∧ get_gate_name "http://WEST/" 3 = "FM West gate"
    ∧ get_gate_name "http://plain/" 2 = "Gate " ++ toString (2 + 1) :=
  ⟨(gate_name_resolution_amended "http://SOUTH.example/"
      "http://south.example/" 0).1 (by decide),
   (gate_name_resolution_amended "http://WEST/" "" 3).2.1,
   (gate_name_resolution_amended "http://SOUTH.example/" "" 0).2.2.1
     (by decide),
   (gate_name_resolution_amended "http://WEST/" "" 3).2.2.2.1
     (by decide) (by decide),
   (gate_name_resolution_amended "http://plain/" "" 2).2.2.2.2
     (by decide) (by decide)⟩

/-- C4 counterexample: a successfully stored sample whose row timestamp is
the instant before the fetch began (0), not the instant the fetch completed
(5): `timestamp = datetime.now()` is the first statement of
`update_gate_count`, executed before `requests.get`. -/
theorem row_timestamp_cex :
    (update_gate_count_timed [] "Gate 1" 0 5
      (HttpResult.response 200 (some ⟨1, 2, 3⟩)) false false).1.1
      = [⟨0, "Gate 1", 1, 0, 2, 0, 3, 0⟩]
    ∧ (update_gate_count_timed [] "Gate 1" 0 5
        (HttpResult.response 200 (some ⟨1, 2, 3⟩)) false false).2 = 5
    ∧ (⟨0, "Gate 1", 1, 0, 2, 0, 3, 0⟩ : GateRow).timestamp ≠ 5 := by
  refine ⟨by decide, by decide, by decide⟩

/-- C4 amended: the timestamp written into a successfully stored row is the
wall clock captured at entry to the per-gate update, before the HTTP GET
begins; the fetch completes `fetchDur` seconds later, so the stored
timestamp precedes (never follows) fetch completion, strictly whenever the
fetch takes nonzero time. -/
theorem row_timestamp_pre_fetch (store : Store) (g : String)
    (clock fetchDur : Nat) (s : RawSample) :
    ∃ row : GateRow,
      (update_gate_count_timed store g clock fetchDur
        (HttpResult.response 200 (some s)) false false).1.1
        = store ++ [row]
      ∧ row.timestamp = clock
      ∧ (update_gate_count_timed store g clock fetchDur
          (HttpResult.response 200 (some s)) false false).2
        = clock + fetchDur
      ∧ row.timestamp ≤ (update_gate_count_timed store g clock fetchDur
          (HttpResult.response 200 (some s)) false false).2 := by
  obtain ⟨row, hrow, hts, -⟩ := update_gate_count_ok store g clock s
  refine ⟨row, ?_, hts, rfl, ?_⟩
  · show (update_gate_count store g clock
      (HttpResult.response 200 (some s)) false false).1 = store ++ [row]
    rw [hrow]
  · rw [hts]
    exact Nat.le_add_right clock fetchDur

/-- C6 counterexample: in the standalone script the hourly-aligned wait is
a single `time.sleep(s)`: during a full 3600-second wait no flag is read at
all (in particular not during its first second), and the wait always lasts
the full `s` seconds, so a stop request during it is never observed within
a second. -/
theorem standalone_wait_unchecked_cex :
    (main_wait (seconds_until_hour 0 0)).1 = 3600
    ∧ (main_wait (seconds_until_hour 0 0)).2 = []
    ∧ ¬ (0 ∈ (main_wait (seconds_until_hour 0 0)).2) := by
  refine ⟨by decide, by decide, by decide⟩

/-- C6 amended: the threaded service's worker wait does behave as claimed:
it reads `self.running` once before each 1-second sleep (every second of
the actual wait has a flag read at its start), and if the flag is cleared
from elapsed time `t ≤ s` onward, the wait ends after at most `t` seconds —
within about one second of the stop request, not at the hour boundary. The
standalone script's wait is instead one uninterruptible `time.sleep(s)`. -/
theorem worker_wait_interruptible (minute second t : Nat)
    (running : Nat → Bool)
    (hstop : ∀ u, t ≤ u → running u = false)
    (ht : t ≤ seconds_until_hour minute second) :
    (wait_loop (seconds_until_hour minute second) running).1 ≤ t
    ∧ ∀ u, u < (wait_loop (seconds_until_hour minute second) running).1 →
        u ∈ (wait_loop (seconds_until_hour minute second) running).2 := by
  constructor
  · have h0 : (0 : Nat) ≤ t := Nat.zero_le t
    exact wait_step_stop running t hstop (seconds_until_hour minute second) 0 h0
  · intro u hu
    exact wait_step_checks running (seconds_until_hour minute second) 0 u
      (Nat.zero_le u) hu

/-- C6 amended witness: with a stop requested at elapsed time 2 of a
3600-second wait, the worker's wait ends within 2 seconds, and every second
it did wait began with a flag read. -/
theorem worker_wait_interruptible_witness :
    (wait_loop (seconds_until_hour 0 0) (fun u => decide (u < 2))).1 ≤ 2
    ∧ ∀ u, u < (wait_loop (seconds_until_hour 0 0)
          (fun u => decide (u < 2))).1 →
        u ∈ (wait_loop (seconds_until_hour 0 0)
          (fun u => decide (u < 2))).2 :=
  worker_wait_interruptible 0 0 2 (fun u => decide (u < 2))
    (fun u hu => decide_eq_false (by omega)) (by decide)

/-- C7: starting from a free lock, two callers with distinct pids that both
call `acquire` see exactly one success — the second caller fails
immediately (the non-blocking flock raises, the handle is closed) — and
after the holder calls `release`, a fresh `acquire` by the other caller
succeeds. The flock call is the single shared-state transition of
`acquire`, so the two interleavings of the two calls are the two
instantiation orders of this statement. -/
theorem process_lock_mutual_exclusion (p1 p2 : Nat) (st : FlockState)
    (hfree : st.holder = none) (hne : p1 ≠ p2) :
    ((ProcessLock.acquire ⟨p1, false⟩ st).1 = true)
    ∧ ((ProcessLock.acquire ⟨p2, false⟩
        (ProcessLock.acquire ⟨p1, false⟩ st).2.2).1 = false)
    ∧ ((ProcessLock.acquire ⟨p2, false⟩
        (ProcessLock.release (ProcessLock.acquire ⟨p1, false⟩ st).2.1
          (ProcessLock.acquire ⟨p2, false⟩
            (ProcessLock.acquire ⟨p1, false⟩ st).2.2).2.2).2).1 = true) := by
  simp [ProcessLock.acquire, ProcessLock.release, hfree]

/-- C7 witness: pids 1 and 2 on an initially free, absent lock file. -/
theorem process_lock_mutual_exclusion_witness :
    ((ProcessLock.acquire ⟨1, false⟩ ⟨none, false⟩).1 = true)
    ∧ ((ProcessLock.acquire ⟨2, false⟩
        (ProcessLock.acquire ⟨1, false⟩ ⟨none, false⟩).2.2).1 = false)
    ∧ ((ProcessLock.acquire ⟨2, false⟩
        (ProcessLock.release (ProcessLock.acquire ⟨1, false⟩ ⟨none, false⟩).2.1
          (ProcessLock.acquire ⟨2, false⟩
            (ProcessLock.acquire ⟨1, false⟩ ⟨none, false⟩).2.2).2.2).2).1
        = true) :=
  process_lock_mutual_exclusion 1 2 ⟨none, false⟩ rfl (by decide)

/-- C9: `release` is idempotent and always safe — with no acquisition it is
a no-op; after it runs, the object is in the released state and releasing
again changes nothing; and a holder's release clears the flock, removes the
backing lock file, and leaves the lock acquirable by any future caller. -/
theorem process_lock_release_idempotent (lk : ProcessLock) (st : FlockState) :
    (lk.lock_file = false → ProcessLock.release lk st = (lk, st))
    ∧ ((ProcessLock.release lk st).1.lock_file = false)
    ∧ (ProcessLock.release (ProcessLock.release lk st).1
        (ProcessLock.release lk st).2 = ProcessLock.release lk st)
    ∧ (lk.lock_file = true → st.holder = some lk.pid →
        (ProcessLock.release lk st).2.file_present = false
        ∧ (ProcessLock.release lk st).2.holder = none
        ∧ ∀ q : Nat,
            (ProcessLock.acquire ⟨q, false⟩ (ProcessLock.release lk st).2).1
              = true) := by
  by_cases h : lk.lock_file
  · refine ⟨fun hfalse => absurd h (by rw [hfalse]; exact Bool.false_ne_true),
      ?_, ?_, ?_⟩
    · simp [ProcessLock.release, h]
    · simp [ProcessLock.release, h]
    · intro _ hholder
      refine ⟨by simp [ProcessLock.release, h], ?_, ?_⟩
      · simp [ProcessLock.release, h, hholder]
      · intro q
        simp [ProcessLock.release, ProcessLock.acquire, h, hholder]
  · have h' : lk.lock_file = false := Bool.not_eq_true lk.lock_file ▸ by
      simpa using h
    refine ⟨fun _ => by simp [ProcessLock.release, h'], ?_, ?_, ?_⟩
    · simp [ProcessLock.release, h']
    · simp [ProcessLock.release, h']
    · intro htrue
      exact absurd htrue (by rw [h']; exact Bool.false_ne_true)

/-- C9 witness: a holder (pid 7) releasing a held lock: the file is
removed, the flock freed, and pid 9 can then acquire; double release of the
resulting released object changes nothing. -/
theorem process_lock_release_idempotent_witness :
    (ProcessLock.release ⟨7, true⟩ ⟨some 7, true⟩).2.file_present = false
    ∧ (ProcessLock.release ⟨7, true⟩ ⟨some 7, true⟩).2.holder = none
    ∧ ∀ q : Nat,
        (ProcessLock.acquire ⟨q, false⟩
          (ProcessLock.release ⟨7, true⟩ ⟨some 7, true⟩).2).1 = true :=
  (process_lock_release_idempotent ⟨7, true⟩ ⟨some 7, true⟩).2.2.2 rfl rfl
